import Mathlib

/-!
A verification development for the checked sum-type container of
`include/range/v3/utility/variant.hpp` and its `optional<T>` adaptor
(`include/range/v3/utility/optional.hpp`).

The embedding is a shallow one.  A `variant<Ts...>` object is modelled by
`VariantState α n`: the signed `index_` member (an `Int`, `-1` meaning
valueless) together with the live cell of the recursive union storage
(`Option α`; `none` when no alternative is live — invariant I1 of the
design says at most one cell is ever constructed, and it is the cell named
by `index_`).  Alternative values are drawn from a single payload type `α`;
which alternative a value belongs to is tracked by the index, exactly as
the C++ storage tracks liveness by `index_`.

C++ constructors and assignment operators of the alternatives may throw.
They are modelled as `Except`-valued functions: a constructor behaviour is
`α → Except Unit α` (`.error` = the constructor threw, nothing was
constructed), an assignment behaviour is `α → α → Except α α` (`.error a`
= the assignment threw, leaving the target element alive with value `a`).
Each C++ member function that can exit by exception is embedded as a
function returning `Except σ σ`: `.ok s` is normal completion in state
`s`, `.error s` is an exception escaping with the object left in state
`s`.
-/

namespace RangeV3

/-- The observable state of a `variant<Ts...>` with `n` alternatives:
the signed `index_` member (`-1` = valueless by exception) and the live
cell of the union storage (`none` when no alternative is live). -/
structure VariantState (α : Type) (n : Nat) where
  index : Int
  storage : Option α
  deriving DecidableEq, Repr

variable {α : Type} {n : Nat}

/-- The index invariant of `variant_base` (enforced by `validate()`):
`-1 <= index_ < n`, and the storage holds a live cell exactly when
`index_` is not `-1` (invariant I1). -/
def VariantState.WF (s : VariantState α n) : Prop :=
  -1 ≤ s.index ∧ s.index < (n : Int) ∧ (s.index = -1 ↔ s.storage = none)

instance (s : VariantState α n) [DecidableEq α] : Decidable s.WF := by
  unfold VariantState.WF; infer_instance

/-- `variant_base::valueless_by_exception()`: `index_ < 0`. -/
def VariantState.valueless_by_exception (s : VariantState α n) : Bool :=
  s.index < 0

/-- `variant_base::clear()`: destroys the live cell (if any) and sets
`index_` to `-1`.  Destruction is `noexcept`, so this always completes. -/
def VariantState.clear (s : VariantState α n) : VariantState α n :=
  { index := -1, storage := none }

/-- `variant_base::variant_base(meta::size_t<I>, args...)` /
`variant(in_place_index_t<I>, args...)` after a successful construction of
alternative `i` with value `v`: `index_ = I` and cell `I` live. -/
def mkVariant (n : Nat) (i : Nat) (v : α) : VariantState α n :=
  { index := (i : Int), storage := some v }

/-- `variant_base::emplace_(meta::size_t<I>, args...)`: `clear()`, then
placement-construct alternative `i` in the storage and set `index_ = I`.
`ctor` is the outcome of the alternative's constructor; if it throws, the
exception escapes after `clear()` has run but before `index_` is set, so
the escaped state is the cleared (valueless) one. -/
def VariantState.emplace_ (s : VariantState α n) (i : Nat) (ctor : Except Unit α) :
    Except (VariantState α n) (VariantState α n) :=
  match ctor with
  | .error _ => .error s.clear
  | .ok v => .ok { index := (i : Int), storage := some v }

/-- Checked access `get<I>(v)` (variant.hpp:1265): throws
`bad_variant_access` when `I != v.index()` (in particular always when the
variant is valueless, since then `index()` is the huge `size_t` cast of
`-1`), otherwise returns the live cell. -/
def VariantState.get (i : Nat) (s : VariantState α n) : Except Unit α :=
  if (i : Int) = s.index then
    match s.storage with
    | some a => .ok a
    | none => .error ()
  else .error ()

/-- The copy and move constructors of `variant_smf_construct_<false,...>`
(variant.hpp:826-851); the two bodies are identical up to which
alternative constructor (`copyOf` resp. `moveOf`) is invoked, passed here
as `ctorOf`.  The object starts as the default-constructed base
(`index_ = -1`); if the source is not valueless, the source's live
alternative is constructed into the storage via `variant_construct_visitor`
and then `index_` is set to the source's index.  If the construction
throws, no variant object comes to exist (`.error ()`). -/
def smf_construct (that : VariantState α n) (ctorOf : α → Except Unit α) :
    Except Unit (VariantState α n) :=
  if that.valueless_by_exception then .ok { index := -1, storage := none }
  else
    match that.storage with
    | some a =>
      match ctorOf a with
      | .error _ => .error ()
      | .ok b => .ok { index := that.index, storage := some b }
    | none => .ok { index := -1, storage := none }

/-- `variant_smf_assign_<false,...>::operator=(variant_smf_assign_&&)`
(variant.hpp:910-934).  `assignOf a b` is the live alternative's move
assignment of source value `b` into target value `a` (`.error a2` = threw
with the target element left alive holding `a2`); `moveOf b` is the move
constructor.  Same index: element-wise move assignment (nothing when both
are valueless).  Different index: `clear()` first, then — if the source is
not valueless — construct the source's live alternative directly in place
via `variant_construct_visitor` and set `index_`; if that construction
throws, the escaped state is the cleared (valueless) one. -/
def moveAssign (self that : VariantState α n)
    (assignOf : α → α → Except α α) (moveOf : α → Except Unit α) :
    Except (VariantState α n) (VariantState α n) :=
  if self.index = that.index then
    if 0 ≤ that.index then
      match self.storage, that.storage with
      | some a, some b =>
        match assignOf a b with
        | .error a2 => .error { index := self.index, storage := some a2 }
        | .ok a2 => .ok { index := self.index, storage := some a2 }
      | _, _ => .ok self
    else .ok self
  else
    if 0 ≤ that.index then
      match that.storage with
      | some b =>
        match moveOf b with
        | .error _ => .error self.clear
        | .ok v => .ok { index := that.index, storage := some v }
      | none => .ok self.clear
    else .ok self.clear

/-- `variant_smf_assign_<false,...>::operator=(variant_smf_assign_ const&)`
(variant.hpp:884-909).  Same index: element-wise copy assignment.  Source
valueless (and indices differ): `clear()`.  Different live index: the
`variant_two_step_visitor` (variant.hpp:784-800) first copy-constructs a
scratch copy `tmp` of the source's live alternative (a throw here escapes
with `*this` untouched), then `clear()`s `*this`, then move-constructs
from `tmp` into the storage (a throw here escapes with `*this` valueless)
and finally sets `index_`. -/
def copyAssign (self that : VariantState α n)
    (assignOf : α → α → Except α α) (copyOf : α → Except Unit α)
    (moveOf : α → Except Unit α) :
    Except (VariantState α n) (VariantState α n) :=
  if self.index = that.index then
    if 0 ≤ that.index then
      match self.storage, that.storage with
      | some a, some b =>
        match assignOf a b with
        | .error a2 => .error { index := self.index, storage := some a2 }
        | .ok a2 => .ok { index := self.index, storage := some a2 }
      | _, _ => .ok self
    else .ok self
  else if that.index < 0 then .ok self.clear
  else
    match that.storage with
    | some b =>
      match copyOf b with
      | .error _ => .error self
      | .ok tmp =>
        match moveOf tmp with
        | .error _ => .error self.clear
        | .ok v => .ok { index := that.index, storage := some v }
    | none => .ok self.clear

/-- The converting assignment `variant::operator=(T&&)` (variant.hpp:1100)
selecting alternative `j`: if `j` equals the current index, assign to the
live element in place (`assignOf`); otherwise `emplace_(j, t)` with
constructor outcome `ctor`. -/
def convertAssign (self : VariantState α n) (j : Nat)
    (assignOf : α → Except α α) (ctor : Except Unit α) :
    Except (VariantState α n) (VariantState α n) :=
  if (j : Int) = self.index then
    match self.storage with
    | some a =>
      match assignOf a with
      | .error a2 => .error { index := self.index, storage := some a2 }
      | .ok a2 => .ok { index := self.index, storage := some a2 }
    | none => .ok self
  else self.emplace_ j ctor

/-- `variant_base::swap_` (variant.hpp:699-724), the three-step exchange
through a default-constructed temporary, each leg performed by
`variant_emplace_visitor` (move-construct into the target — whose
`emplace_` clears it first — then clear the source).  A throwing move in
any leg escapes with the states reached at that point; `moveOf` is the
alternatives' move constructor. -/
def variantBaseSwap (self that : VariantState α n) (moveOf : α → Except Unit α) :
    Except (VariantState α n × VariantState α n)
           (VariantState α n × VariantState α n) :=
  match
    (if that.index < 0 then
       .ok (self, that, ({ index := -1, storage := none } : VariantState α n))
     else
       match that.storage with
       | some b =>
         match moveOf b with
         | .error _ => .error (self, that)
         | .ok b2 =>
           .ok (self, ({ index := -1, storage := none } : VariantState α n),
                ({ index := that.index, storage := some b2 } : VariantState α n))
       | none =>
         .ok (self, that, ({ index := -1, storage := none } : VariantState α n)) :
     Except (VariantState α n × VariantState α n)
            (VariantState α n × VariantState α n × VariantState α n))
  with
  | .error e => .error e
  | .ok (self1, that1, tmp1) =>
    match
      (if self1.index < 0 then .ok (self1, that1, tmp1)
       else
         match self1.storage with
         | some a =>
           match moveOf a with
           | .error _ => .error (self1, that1.clear)
           | .ok a2 =>
             .ok (({ index := -1, storage := none } : VariantState α n),
                  ({ index := self1.index, storage := some a2 } : VariantState α n),
                  tmp1)
         | none => .ok (self1, that1, tmp1) :
       Except (VariantState α n × VariantState α n)
              (VariantState α n × VariantState α n × VariantState α n))
    with
    | .error e => .error e
    | .ok (self2, that2, tmp2) =>
      if tmp2.index < 0 then .ok (self2, that2)
      else
        match tmp2.storage with
        | some c =>
          match moveOf c with
          | .error _ => .error (self2.clear, that2)
          | .ok c2 =>
            .ok (({ index := tmp2.index, storage := some c2 } : VariantState α n),
                 that2)
        | none => .ok (self2, that2)

/-- `variant::swap_impl` (variant.hpp:1031-1051): equal indices (including
both valueless) swap the two live alternatives element-wise with
`variant_swap_same_visitor` (`swapOf i a b`, for alternative `i`; `.error`
= the element swap threw with the two elements left holding the carried
values); different indices delegate to the three-step `variant_base` swap. -/
def swap_impl (self that : VariantState α n)
    (swapOf : Nat → α → α → Except (α × α) (α × α))
    (moveOf : α → Except Unit α) :
    Except (VariantState α n × VariantState α n)
           (VariantState α n × VariantState α n) :=
  if self.index = that.index then
    if that.index < 0 then .ok (self, that)
    else
      match self.storage, that.storage with
      | some a, some b =>
        match swapOf that.index.toNat a b with
        | .error (a2, b2) =>
          .error ({ index := self.index, storage := some a2 },
                  { index := that.index, storage := some b2 })
        | .ok (a2, b2) =>
          .ok ({ index := self.index, storage := some a2 },
               { index := that.index, storage := some b2 })
      | _, _ => .ok (self, that)
  else variantBaseSwap self that moveOf

/-- `operator==(variant const&, variant const&)` (variant.hpp:1408):
`x.index() == y.index() && (x.valueless_by_exception() || <live elements
equal>)`, the element comparison delegated via the dispatch table to the
live alternative's own `==` (`eqOf i`). -/
def variantEq (eqOf : Nat → α → α → Bool) (x y : VariantState α n) : Bool :=
  (x.index == y.index) &&
    (x.valueless_by_exception ||
      match x.storage, y.storage with
      | some a, some b => eqOf x.index.toNat a b
      | _, _ => true)

/-- `operator<(variant const&, variant const&)` (variant.hpp:1432):
`!y.valueless && (x.valueless || x.index() < y.index() ||
(!(y.index() < x.index()) && <live element of x < live element of y>))`,
the element comparison delegated to the live alternative's own `<`
(`ltOf i`). -/
def variantLt (ltOf : Nat → α → α → Bool) (x y : VariantState α n) : Bool :=
  !y.valueless_by_exception &&
    (x.valueless_by_exception || decide (x.index < y.index) ||
      (!(decide (y.index < x.index)) &&
        match x.storage, y.storage with
        | some a, some b => ltOf x.index.toNat a b
        | _, _ => false))

/-- The data `variant_canonical_index` reads from each variant argument:
its number of alternatives (`variant_size`) and its signed index. -/
structure VInfo where
  size : Nat
  index : Int
  deriving DecidableEq, Repr

/-- `valueless_by_exception()` of a visited variant argument. -/
def VInfo.valueless_by_exception (v : VInfo) : Bool :=
  v.index < 0

/-- `detail::variant_total_alternatives<Variants...>`: the product of the
variants' sizes (a `meta::fold` with `meta::multiplies` over `1`). -/
def variant_total_alternatives (vs : List VInfo) : Nat :=
  (vs.map VInfo.size).prod

/-- `detail::variant_canonical_index` (variant.hpp:1477-1488): `0` for no
variants; otherwise check the first variant for valuelessness — throwing
`bad_variant_access` (`.error ()`) if it is valueless — and then combine
`first.index() * variant_total_alternatives<Rest...> + canonical(rest)`. -/
def variant_canonical_index : List VInfo → Except Unit Nat
  | [] => .ok 0
  | v :: rest =>
    if v.valueless_by_exception then .error ()
    else
      match variant_canonical_index rest with
      | .error e => .error e
      | .ok r => .ok (v.index.toNat * variant_total_alternatives rest + r)

/-- `ranges::visit` (variant.hpp:1491-1499): evaluate the canonical index
(which throws if any argument is valueless), then look the thunk up in the
dispatch table (`table`) and invoke it.  The table entries stand for the
`variant_dispatch` thunks; an `.error` outcome means no lookup and no
thunk invocation happened. -/
def visit {β : Type} (table : Nat → β) (vs : List VInfo) : Except Unit β :=
  match variant_canonical_index vs with
  | .error e => .error e
  | .ok k => .ok (table k)

/-- `ranges::visit_i` (variant.hpp:1501-1509): as `visit` but with the
`cooked_indexed_variant` projection; the dispatch structure — canonical
index first, table lookup second — is identical. -/
def visit_i {β : Type} (table : Nat → β) (vs : List VInfo) : Except Unit β :=
  match variant_canonical_index vs with
  | .error e => .error e
  | .ok k => .ok (table k)

/-- `optional<T>` stores `variant<monostate, T> v_`: a two-alternative
variant whose alternative `0` payload is the `monostate` marker (`.inl ()`)
and whose alternative `1` payload is a `T` (`.inr t`). -/
abbrev OptionalState (τ : Type) := VariantState (Unit ⊕ τ) 2

/-- `optional::has_value()` (optional.hpp:237-241): asserts
`v_.index() == 0 || v_.index() == 1` and returns `v_.index() != 0`. -/
def has_value {τ : Type} (o : OptionalState τ) : Bool :=
  o.index != 0

/-- `optional::reset()` (optional.hpp:277): `v_.emplace<0>()` — clear,
then construct the `monostate` alternative, which cannot throw; the result
is always the empty state. -/
def reset {τ : Type} (o : OptionalState τ) : OptionalState τ :=
  { index := 0, storage := some (Sum.inl ()) }

/-- The empty `optional` state: alternative `0` (`monostate`) live. -/
def emptyOptional {τ : Type} : OptionalState τ :=
  { index := 0, storage := some (Sum.inl ()) }

/-- `optional::operator=(U&&)` (optional.hpp:163-173): construct the
`optional_cleanup_guard`, run the underlying variant converting assignment
`v_ = (U&&)u` (alternative `1`), and release the guard.  If the
assignment throws, the guard's destructor runs `reset()` on unwind, so the
escaped state is the empty one. -/
def optionalAssign {τ : Type} (o : OptionalState τ)
    (assignOf : Unit ⊕ τ → Except (Unit ⊕ τ) (Unit ⊕ τ))
    (ctor : Except Unit (Unit ⊕ τ)) :
    Except (OptionalState τ) (OptionalState τ) :=
  match convertAssign o 1 assignOf ctor with
  | .error e => .error (reset e)
  | .ok s => .ok s

/-- `optional::emplace(args...)` (optional.hpp:175-183): guard, then
`v_.emplace<1>(args...)`, then release; on a throw the guard resets the
optional to empty on unwind. -/
def optionalEmplace {τ : Type} (o : OptionalState τ)
    (ctor : Except Unit (Unit ⊕ τ)) :
    Except (OptionalState τ) (OptionalState τ) :=
  match o.emplace_ 1 ctor with
  | .error e => .error (reset e)
  | .ok s => .ok s

/-- `optional::swap(optional&)` (optional.hpp:195-203): guard on `*this`,
then `ranges::swap(v_, that.v_)` (the variant `swap_impl`), then release;
on a throw the guard resets `*this` — and only `*this` — to empty on
unwind. -/
def optionalSwap {τ : Type} (o p : OptionalState τ)
    (swapOf : Nat → (Unit ⊕ τ) → (Unit ⊕ τ) →
      Except ((Unit ⊕ τ) × (Unit ⊕ τ)) ((Unit ⊕ τ) × (Unit ⊕ τ)))
    (moveOf : Unit ⊕ τ → Except Unit (Unit ⊕ τ)) :
    Except (OptionalState τ × OptionalState τ)
           (OptionalState τ × OptionalState τ) :=
  match swap_impl o p swapOf moveOf with
  | .error (e1, e2) => .error (reset e1, e2)
  | .ok r => .ok r

/-! ## Well-formedness helpers -/

/-- Outcome-wise well-formedness for an operation on one variant: both the
normally-reached state and the state in which an exception escapes satisfy
the index invariant. -/
def ExceptWF (r : Except (VariantState α n) (VariantState α n)) : Prop :=
  match r with
  | .error e => e.WF
  | .ok s => s.WF

/-- Outcome-wise well-formedness for an operation on a pair of variants. -/
def ExceptWF2 (r : Except (VariantState α n × VariantState α n)
    (VariantState α n × VariantState α n)) : Prop :=
  match r with
  | .error e => e.1.WF ∧ e.2.WF
  | .ok s => s.1.WF ∧ s.2.WF

theorem wf_none : ({ index := -1, storage := none } : VariantState α n).WF := by
  refine ⟨?_, ?_, ?_⟩
  · show (-1 : Int) ≤ -1
    omega
  · show (-1 : Int) < (n : Int)
    omega
  · show (-1 : Int) = -1 ↔ (none : Option α) = none
    simp

theorem wf_clear (s : VariantState α n) : s.clear.WF := wf_none

theorem wf_some {i : Int} (a : α) (h0 : 0 ≤ i) (h : i < (n : Int)) :
    ({ index := i, storage := some a } : VariantState α n).WF := by
  refine ⟨?_, ?_, ?_⟩
  · show (-1 : Int) ≤ i
    omega
  · exact h
  · show i = -1 ↔ some a = none
    simp
    omega

theorem wf_mk (i : Nat) (v : α) (h : i < n) : (mkVariant n i v).WF :=
  wf_some v (by omega) (by omega)

theorem wf_emplace (s : VariantState α n) (i : Nat) (ctor : Except Unit α)
    (hi : i < n) : ExceptWF (s.emplace_ i ctor) := by
  cases ctor with
  | error u => exact wf_clear s
  | ok v => exact wf_some v (by omega) (by omega)

/-- The live index of a non-valueless well-formed variant is in `[0, n)`. -/
theorem index_nonneg_of_some {s : VariantState α n} (hw : s.WF) {a : α}
    (ha : s.storage = some a) : 0 ≤ s.index := by
  rcases hw with ⟨h1, h2, h3⟩
  by_contra hlt
  have : s.index = -1 := by omega
  rw [h3.mp this] at ha
  exact Option.noConfusion ha

/-- A well-formed variant with a nonnegative index has a live cell. -/
theorem storage_some_of_nonneg {s : VariantState α n} (hw : s.WF)
    (h0 : 0 ≤ s.index) : ∃ a, s.storage = some a := by
  rcases hw with ⟨h1, h2, h3⟩
  rcases hs : s.storage with _ | a
  · exact absurd (h3.mpr hs) (by omega)
  · exact ⟨a, rfl⟩

theorem wf_moveAssign (self that : VariantState α n) (hs : self.WF) (ht : that.WF)
    (assignOf : α → α → Except α α) (moveOf : α → Except Unit α) :
    ExceptWF (moveAssign self that assignOf moveOf) := by
  unfold moveAssign
  by_cases heq : self.index = that.index
  · rw [if_pos heq]
    by_cases h0 : 0 ≤ that.index
    · rw [if_pos h0]
      rcases hss : self.storage with _ | a <;> rcases hts : that.storage with _ | b <;>
        simp only [hss, hts]
      · exact hs
      · exact hs
      · exact hs
      · cases assignOf a b with
        | error a2 => exact wf_some a2 (heq ▸ h0) hs.2.1
        | ok a2 => exact wf_some a2 (heq ▸ h0) hs.2.1
    · rw [if_neg h0]; exact hs
  · rw [if_neg heq]
    by_cases h0 : 0 ≤ that.index
    · rw [if_pos h0]
      rcases hts : that.storage with _ | b <;> simp only [hts]
      · exact wf_clear self
      · cases moveOf b with
        | error u => exact wf_clear self
        | ok v => exact wf_some v h0 ht.2.1
    · rw [if_neg h0]; exact wf_clear self

theorem wf_copyAssign (self that : VariantState α n) (hs : self.WF) (ht : that.WF)
    (assignOf : α → α → Except α α) (copyOf moveOf : α → Except Unit α) :
    ExceptWF (copyAssign self that assignOf copyOf moveOf) := by
  unfold copyAssign
  by_cases heq : self.index = that.index
  · rw [if_pos heq]
    by_cases h0 : 0 ≤ that.index
    · rw [if_pos h0]
      rcases hss : self.storage with _ | a <;> rcases hts : that.storage with _ | b <;>
        simp only [hss, hts]
      · exact hs
      · exact hs
      · exact hs
      · cases assignOf a b with
        | error a2 => exact wf_some a2 (heq ▸ h0) hs.2.1
        | ok a2 => exact wf_some a2 (heq ▸ h0) hs.2.1
    · rw [if_neg h0]; exact hs
  · rw [if_neg heq]
    by_cases h0 : that.index < 0
    · rw [if_pos h0]; exact wf_clear self
    · rw [if_neg h0]
      rcases hts : that.storage with _ | b <;> simp only [hts]
      · exact wf_clear self
      · cases copyOf b with
        | error u => exact hs
        | ok tmp =>
          show ExceptWF (match moveOf tmp with
            | .error _ => .error self.clear
            | .ok v => .ok { index := that.index, storage := some v })
          cases moveOf tmp with
          | error u => exact wf_clear self
          | ok v => exact wf_some v (by omega) ht.2.1

theorem wf_convertAssign (self : VariantState α n) (j : Nat) (hj : j < n)
    (hs : self.WF) (assignOf : α → Except α α) (ctor : Except Unit α) :
    ExceptWF (convertAssign self j assignOf ctor) := by
  unfold convertAssign
  by_cases heq : (j : Int) = self.index
  · rw [if_pos heq]
    rcases hss : self.storage with _ | a <;> simp only [hss]
    · exact hs
    · cases assignOf a with
      | error a2 => exact wf_some a2 (by omega) hs.2.1
      | ok a2 => exact wf_some a2 (by omega) hs.2.1
  · rw [if_neg heq]; exact wf_emplace self j ctor hj

theorem wf_smf_construct (that : VariantState α n) (ctorOf : α → Except Unit α)
    (ht : that.WF) (s : VariantState α n)
    (h : smf_construct that ctorOf = .ok s) : s.WF := by
  unfold smf_construct at h
  by_cases hv : that.valueless_by_exception
  · rw [if_pos hv] at h
    cases h
    exact wf_none
  · rw [if_neg hv] at h
    have h0 : 0 ≤ that.index := by
      simp [VariantState.valueless_by_exception] at hv
      omega
    rcases hts : that.storage with _ | a <;> rw [hts] at h <;> dsimp only at h
    · cases h; exact wf_none
    · cases hc : ctorOf a <;> rw [hc] at h <;> dsimp only at h
      · exact Except.noConfusion h
      · cases h; exact wf_some _ h0 ht.2.1

theorem wf_variantBaseSwap (self that : VariantState α n) (hs : self.WF)
    (ht : that.WF) (moveOf : α → Except Unit α) :
    ExceptWF2 (variantBaseSwap self that moveOf) := by
  unfold variantBaseSwap
  have step23 :
      ∀ (self1 that1 tmp1 : VariantState α n), self1.WF → that1.WF → tmp1.WF →
        ExceptWF2 (match
          (if self1.index < 0 then .ok (self1, that1, tmp1)
           else
             match self1.storage with
             | some a =>
               match moveOf a with
               | .error _ => .error (self1, that1.clear)
               | .ok a2 =>
                 .ok (({ index := -1, storage := none } : VariantState α n),
                      ({ index := self1.index, storage := some a2 } : VariantState α n),
                      tmp1)
             | none => .ok (self1, that1, tmp1) :
           Except (VariantState α n × VariantState α n)
                  (VariantState α n × VariantState α n × VariantState α n))
        with
        | .error e => .error e
        | .ok (self2, that2, tmp2) =>
          if tmp2.index < 0 then .ok (self2, that2)
          else
            match tmp2.storage with
            | some c =>
              match moveOf c with
              | .error _ => .error (self2.clear, that2)
              | .ok c2 =>
                .ok (({ index := tmp2.index, storage := some c2 } : VariantState α n),
                     that2)
            | none => .ok (self2, that2)) := by
    intro self1 that1 tmp1 h1 h2 h3
    have step3 :
        ∀ (self2 that2 tmp2 : VariantState α n), self2.WF → that2.WF → tmp2.WF →
          ExceptWF2 (if tmp2.index < 0 then
              (.ok (self2, that2) :
                Except (VariantState α n × VariantState α n)
                       (VariantState α n × VariantState α n))
            else
              match tmp2.storage with
              | some c =>
                match moveOf c with
                | .error _ => .error (self2.clear, that2)
                | .ok c2 =>
                  .ok (({ index := tmp2.index, storage := some c2 } : VariantState α n),
                       that2)
              | none => .ok (self2, that2)) := by
      intro self2 that2 tmp2 g1 g2 g3
      by_cases hm : tmp2.index < 0
      · rw [if_pos hm]; exact ⟨g1, g2⟩
      · rw [if_neg hm]
        rcases hms : tmp2.storage with _ | c <;> simp only [hms]
        · exact ⟨g1, g2⟩
        · cases moveOf c with
          | error u => exact ⟨wf_clear self2, g2⟩
          | ok c2 => exact ⟨wf_some c2 (by omega) g3.2.1, g2⟩
    by_cases h1v : self1.index < 0
    · rw [if_pos h1v]; exact step3 self1 that1 tmp1 h1 h2 h3
    · rw [if_neg h1v]
      rcases h1s : self1.storage with _ | a <;> simp only [h1s]
      · exact step3 self1 that1 tmp1 h1 h2 h3
      · cases moveOf a with
        | error u => exact ⟨h1, wf_clear that1⟩
        | ok a2 =>
          exact step3 _ _ _ wf_none (wf_some a2 (by omega) h1.2.1) h3
  by_cases h0 : that.index < 0
  · rw [if_pos h0]; exact step23 self that _ hs ht wf_none
  · rw [if_neg h0]
    rcases hts : that.storage with _ | b <;> simp only [hts]
    · exact step23 self that _ hs ht wf_none
    · cases moveOf b with
      | error u => exact ⟨hs, ht⟩
      | ok b2 =>
        exact step23 self _ _ hs wf_none (wf_some b2 (by omega) ht.2.1)

theorem wf_swap_impl (self that : VariantState α n) (hs : self.WF) (ht : that.WF)
    (swapOf : Nat → α → α → Except (α × α) (α × α))
    (moveOf : α → Except Unit α) :
    ExceptWF2 (swap_impl self that swapOf moveOf) := by
  unfold swap_impl
  by_cases heq : self.index = that.index
  · rw [if_pos heq]
    by_cases h0 : that.index < 0
    · rw [if_pos h0]; exact ⟨hs, ht⟩
    · rw [if_neg h0]
      rcases hss : self.storage with _ | a <;> rcases hts : that.storage with _ | b <;>
        simp only [hss, hts]
      · exact ⟨hs, ht⟩
      · exact ⟨hs, ht⟩
      · exact ⟨hs, ht⟩
      · rcases hsw : swapOf that.index.toNat a b with ⟨a2, b2⟩ | ⟨a2, b2⟩
        · exact ⟨wf_some a2 (heq ▸ by omega) hs.2.1, wf_some b2 (by omega) ht.2.1⟩
        · exact ⟨wf_some a2 (heq ▸ by omega) hs.2.1, wf_some b2 (by omega) ht.2.1⟩
  · rw [if_neg heq]; exact wf_variantBaseSwap self that hs ht moveOf

/-! ## Claim theorems -/

/-- C1 (counterexample): the claim asserts that cross-index move-assignment
with a potentially-throwing construction of the new alternative move-constructs
into a scratch slot first so that a throw leaves the target in its *original*
state.  On the code, move-assigning `variant` holding alternative 1 (value 7)
into one holding alternative 0 (value 5), with a move constructor that throws,
escapes with the target *valueless* (`index = -1`), not in its original state
`⟨0, some 5⟩`. -/
theorem C1_counterexample :
    moveAssign ({ index := 0, storage := some 5 } : VariantState Nat 2)
        { index := 1, storage := some 7 }
        (fun a _ => .ok a) (fun _ => .error ()) =
      .error { index := -1, storage := none } ∧
    ({ index := -1, storage := none } : VariantState Nat 2) ≠
      { index := 0, storage := some 5 } := by
  constructor
  · rfl
  · decide

/-- C1 (amended): for move-assignment where target and source hold different
alternative indices and the source is not valueless, the target is always
cleared first and the source's live alternative is then move-constructed
directly in place — no scratch slot is used, regardless of whether the
construction can throw; if the construction throws, the target is left
valueless (`index = -1`), not in its original state. -/
theorem C1_move_assign_cross (self that : VariantState α n)
    (assignOf : α → α → Except α α) (moveOf : α → Except Unit α)
    (hne : self.index ≠ that.index) (h0 : 0 ≤ that.index)
    (b : α) (hb : that.storage = some b) :
    (moveOf b = .error () →
      moveAssign self that assignOf moveOf =
        .error { index := -1, storage := none }) ∧
    (∀ v, moveOf b = .ok v →
      moveAssign self that assignOf moveOf =
        .ok { index := that.index, storage := some v }) := by
  constructor
  · intro hmv
    unfold moveAssign
    rw [if_neg hne, if_pos h0, hb]
    dsimp only
    rw [hmv]
    rfl
  · intro v hmv
    unfold moveAssign
    rw [if_neg hne, if_pos h0, hb]
    dsimp only
    rw [hmv]

theorem C1_witness :
    ((({ index := 0, storage := some 5 } : VariantState Nat 2).index ≠
        ({ index := 1, storage := some 7 } : VariantState Nat 2).index) ∧
      (0 : Int) ≤ ({ index := 1, storage := some 7 } : VariantState Nat 2).index ∧
      ({ index := 1, storage := some 7 } : VariantState Nat 2).storage = some 7) ∧
    ((fun (_ : Nat) => (.error () : Except Unit Nat)) 7 = .error () →
      moveAssign ({ index := 0, storage := some 5 } : VariantState Nat 2)
          { index := 1, storage := some 7 }
          (fun a _ => .ok a) (fun _ => .error ()) =
        .error { index := -1, storage := none }) :=
  ⟨⟨by decide, by decide, rfl⟩,
    (C1_move_assign_cross { index := 0, storage := some 5 }
      { index := 1, storage := some 7 } (fun a _ => .ok a) (fun _ => .error ())
      (by decide) (by decide) 7 rfl).1⟩

/-- C2: cross-index copy-assignment first constructs a full copy of the
source's live alternative in a scratch slot (a throw there escapes with the
target untouched), then clears the target and move-constructs the copy into
place (a throw there escapes with the target valueless); on success the
target holds the source's index.  Any escaping state is either the original
target or the valueless state — never a third state. -/
theorem C2_copy_assign_cross (self that : VariantState α n)
    (assignOf : α → α → Except α α) (copyOf moveOf : α → Except Unit α)
    (hne : self.index ≠ that.index) (h0 : 0 ≤ that.index)
    (b : α) (hb : that.storage = some b) :
    (copyOf b = .error () →
      copyAssign self that assignOf copyOf moveOf = .error self) ∧
    (∀ t, copyOf b = .ok t → moveOf t = .error () →
      copyAssign self that assignOf copyOf moveOf =
        .error { index := -1, storage := none }) ∧
    (∀ t v, copyOf b = .ok t → moveOf t = .ok v →
      copyAssign self that assignOf copyOf moveOf =
        .ok { index := that.index, storage := some v }) ∧
    (∀ e, copyAssign self that assignOf copyOf moveOf = .error e →
      e = self ∨ e = { index := -1, storage := none }) := by
  have hlt : ¬that.index < 0 := by omega
  refine ⟨?_, ?_, ?_, ?_⟩
  · intro hc
    unfold copyAssign
    rw [if_neg hne, if_neg hlt, hb]
    dsimp only
    rw [hc]
  · intro t hc hm
    unfold copyAssign
    rw [if_neg hne, if_neg hlt, hb]
    dsimp only
    rw [hc]
    dsimp only
    rw [hm]
    rfl
  · intro t v hc hm
    unfold copyAssign
    rw [if_neg hne, if_neg hlt, hb]
    dsimp only
    rw [hc]
    dsimp only
    rw [hm]
  · intro e he
    unfold copyAssign at he
    rw [if_neg hne, if_neg hlt, hb] at he
    dsimp only at he
    cases hc : copyOf b <;> rw [hc] at he <;> dsimp only at he
    · cases he
      exact Or.inl rfl
    case ok t =>
      cases hm : moveOf t <;> rw [hm] at he <;> dsimp only at he
      · cases he
        exact Or.inr rfl
      · exact Except.noConfusion he

theorem C2_witness :
    ((({ index := 0, storage := some 5 } : VariantState Nat 2).index ≠
        ({ index := 1, storage := some 7 } : VariantState Nat 2).index) ∧
      (0 : Int) ≤ ({ index := 1, storage := some 7 } : VariantState Nat 2).index ∧
      ({ index := 1, storage := some 7 } : VariantState Nat 2).storage = some 7) ∧
    ((fun (_ : Nat) => (.error () : Except Unit Nat)) 7 = .error () →
      copyAssign ({ index := 0, storage := some 5 } : VariantState Nat 2)
          { index := 1, storage := some 7 }
          (fun a _ => .ok a) (fun _ => .error ()) (fun v => .ok v) =
        .error { index := 0, storage := some 5 }) :=
  ⟨⟨by decide, by decide, rfl⟩,
    (C2_copy_assign_cross { index := 0, storage := some 5 }
      { index := 1, storage := some 7 } (fun a _ => .ok a) (fun _ => .error ())
      (fun v => .ok v) (by decide) (by decide) 7 rfl).1⟩

/-- Any valueless member of the argument list makes `variant_canonical_index`
throw `bad_variant_access`. -/
theorem canonical_index_error_of_valueless (vs : List VInfo)
    (h : ∃ v ∈ vs, v.valueless_by_exception = true) :
    variant_canonical_index vs = .error () := by
  induction vs with
  | nil => simp at h
  | cons v rest ih =>
    rcases h with ⟨w, hw, hval⟩
    rcases List.mem_cons.mp hw with rfl | hw'
    · simp [variant_canonical_index, hval]
    · unfold variant_canonical_index
      by_cases hv : v.valueless_by_exception = true
      · simp [hv]
      · simp only [hv]
        rw [ih ⟨w, hw', hval⟩]
        simp

/-- C4: when any variant argument of `visit` or `visit_i` is valueless, the
up-front canonical-index computation throws `bad_variant_access`, so the
dispatch fails before any table lookup: the result is the error for *every*
dispatch table, hence no thunk is ever invoked. -/
theorem C4_valueless_dispatch {β γ : Type} (table : Nat → β) (table2 : Nat → γ)
    (vs : List VInfo) (h : ∃ v ∈ vs, v.valueless_by_exception = true) :
    variant_canonical_index vs = .error () ∧
    visit table vs = .error () ∧ visit_i table2 vs = .error () := by
  have hc := canonical_index_error_of_valueless vs h
  exact ⟨hc, by simp [visit, hc], by simp [visit_i, hc]⟩

theorem C4_witness :
    (∃ v ∈ [({ size := 2, index := 0 } : VInfo), { size := 3, index := -1 }],
      v.valueless_by_exception = true) ∧
    (variant_canonical_index
        [({ size := 2, index := 0 } : VInfo), { size := 3, index := -1 }] =
      .error () ∧
    visit (fun _ => (0 : Nat))
        [({ size := 2, index := 0 } : VInfo), { size := 3, index := -1 }] =
      .error () ∧
    visit_i (fun _ => (0 : Nat))
        [({ size := 2, index := 0 } : VInfo), { size := 3, index := -1 }] =
      .error ()) :=
  ⟨by decide,
    C4_valueless_dispatch (fun _ => 0) (fun _ => 0)
      [{ size := 2, index := 0 }, { size := 3, index := -1 }] (by decide)⟩

/-- C5: when the alternative's construction throws during `emplace_`, the
escaped state is the cleared one — valueless, `index = -1` — and every
subsequent checked `get<j>` on it throws `bad_variant_access`, for every
alternative index `j`. -/
theorem C5_emplace_throw (s : VariantState α n) (i : Nat)
    (ctor : Except Unit α) (hc : ctor = .error ()) :
    s.emplace_ i ctor = .error s.clear ∧
    s.clear.valueless_by_exception = true ∧ s.clear.index = -1 ∧
    ∀ j : Nat, VariantState.get j s.clear = .error () := by
  subst hc
  refine ⟨rfl, ?_, rfl, fun j => ?_⟩
  · show decide ((-1 : Int) < 0) = true
    decide
  · unfold VariantState.get
    split <;> rfl

theorem C5_witness :
    ((.error () : Except Unit Nat) = .error ()) ∧
    (({ index := 0, storage := some 3 } : VariantState Nat 2).emplace_ 1
        (.error ()) =
      .error ({ index := 0, storage := some 3 } :
        VariantState Nat 2).clear ∧
    ({ index := 0, storage := some 3 } :
        VariantState Nat 2).clear.valueless_by_exception = true ∧
    ({ index := 0, storage := some 3 } : VariantState Nat 2).clear.index = -1 ∧
    ∀ j : Nat, VariantState.get j
        ({ index := 0, storage := some 3 } : VariantState Nat 2).clear =
      .error ()) :=
  ⟨rfl, C5_emplace_throw { index := 0, storage := some 3 } 1 (.error ()) rfl⟩

/-- C7: constructing a variant in place at alternative index `i` with value
`v` and then reading it back with checked `get<i>` yields `v`, and `index()`
reports `i`. -/
theorem C7_round_trip (i : Nat) (v : α) (hi : i < n) :
    VariantState.get i (mkVariant n i v) = .ok v ∧
    (mkVariant n i v).index = (i : Int) := by
  constructor
  · unfold VariantState.get mkVariant
    rw [if_pos rfl]
  · rfl

theorem C7_witness :
    1 < 2 ∧
    (VariantState.get 1 (mkVariant (α := Nat) 2 1 42) = .ok 42 ∧
      (mkVariant (α := Nat) 2 1 42).index = (1 : Int)) :=
  ⟨by decide, C7_round_trip 1 42 (by decide)⟩

/-- C9: the copy/move constructor of `variant_smf_construct_<false,...>`
yields a valueless variant (constructing no alternative) when the source is
valueless, and otherwise a variant with the source's index whose live
alternative is the result of copy/move-constructing from the source's live
alternative. -/
theorem C9_smf_construct (that : VariantState α n) (ctorOf : α → Except Unit α)
    (hw : that.WF) :
    (that.valueless_by_exception = true →
      smf_construct that ctorOf = .ok { index := -1, storage := none }) ∧
    (∀ a b, that.storage = some a → ctorOf a = .ok b →
      smf_construct that ctorOf = .ok { index := that.index, storage := some b }) := by
  constructor
  · intro hv
    unfold smf_construct
    rw [if_pos hv]
  · intro a b ha hb
    have h0 : 0 ≤ that.index := index_nonneg_of_some hw ha
    have hv : ¬that.valueless_by_exception = true := by
      simp [VariantState.valueless_by_exception]
      omega
    unfold smf_construct
    rw [if_neg hv, ha]
    dsimp only
    rw [hb]

theorem C9_witness :
    (({ index := -1, storage := none } : VariantState Nat 2).WF ∧
      ({ index := -1, storage := none } :
          VariantState Nat 2).valueless_by_exception = true ∧
      smf_construct ({ index := -1, storage := none } : VariantState Nat 2)
          (fun v => .ok (v + 1)) =
        .ok { index := -1, storage := none }) ∧
    (({ index := 1, storage := some 7 } : VariantState Nat 2).WF ∧
      ({ index := 1, storage := some 7 } :
          VariantState Nat 2).storage = some 7 ∧
      (fun (v : Nat) => (.ok (v + 1) : Except Unit Nat)) 7 = .ok 8 ∧
      smf_construct ({ index := 1, storage := some 7 } : VariantState Nat 2)
          (fun v => .ok (v + 1)) =
        .ok { index := 1, storage := some 8 }) :=
  ⟨⟨by decide, by decide,
      (C9_smf_construct { index := -1, storage := none } (fun v => .ok (v + 1))
        (by decide)).1 (by decide)⟩,
    ⟨by decide, rfl, rfl,
      (C9_smf_construct { index := 1, storage := some 7 } (fun v => .ok (v + 1))
        (by decide)).2 7 8 rfl rfl⟩⟩

/-- C10: both `optional::operator=(U&&)` and `optional::swap` run under the
cleanup guard, exactly like `emplace`: whenever the underlying variant
assignment (resp. variant swap) exits by exception, the guard's destructor
resets the target optional on unwind, so the escaped target state is the
empty one (`index = 0`, `monostate` live) — the previously held value is
destroyed, not retained. -/
theorem C10_optional_guard {τ : Type} :
    (∀ (o : OptionalState τ)
       (assignOf : Unit ⊕ τ → Except (Unit ⊕ τ) (Unit ⊕ τ))
       (ctor : Except Unit (Unit ⊕ τ)) (e : OptionalState τ),
      optionalAssign o assignOf ctor = .error e →
        e = emptyOptional ∧ has_value e = false) ∧
    (∀ (o p : OptionalState τ)
       (swapOf : Nat → (Unit ⊕ τ) → (Unit ⊕ τ) →
         Except ((Unit ⊕ τ) × (Unit ⊕ τ)) ((Unit ⊕ τ) × (Unit ⊕ τ)))
       (moveOf : Unit ⊕ τ → Except Unit (Unit ⊕ τ))
       (e1 e2 : OptionalState τ),
      optionalSwap o p swapOf moveOf = .error (e1, e2) →
        e1 = emptyOptional ∧ has_value e1 = false) := by
  constructor
  · intro o assignOf ctor e he
    unfold optionalAssign at he
    cases hca : convertAssign o 1 assignOf ctor <;> rw [hca] at he <;>
      dsimp only at he
    · cases he
      exact ⟨rfl, rfl⟩
    · exact Except.noConfusion he
  · intro o p swapOf moveOf e1 e2 he
    unfold optionalSwap at he
    cases hsw : swap_impl o p swapOf moveOf <;> rw [hsw] at he <;>
      dsimp only at he
    case error e =>
      rcases e with ⟨f1, f2⟩
      dsimp only at he
      cases he
      exact ⟨rfl, rfl⟩
    · exact Except.noConfusion he

theorem C10_witness :
    optionalAssign ({ index := 1, storage := some (Sum.inr 5) } : OptionalState Nat)
        (fun a => .error a) (.ok (Sum.inr 7)) = .error emptyOptional ∧
    ((emptyOptional : OptionalState Nat) = emptyOptional ∧
      has_value (emptyOptional : OptionalState Nat) = false) :=
  ⟨rfl,
    (C10_optional_guard (τ := Nat)).1 { index := 1, storage := some (Sum.inr 5) }
      (fun a => .error a) (.ok (Sum.inr 7)) emptyOptional rfl⟩

/-- C3: for every well-formed state the stored index lies in `[-1, n)` and
`valueless_by_exception()` holds exactly when it is `-1`; and every
operation — in-place construction, copy/move construction, `clear`,
`emplace_`, move/copy/converting assignment and `swap` — carries
well-formed states to well-formed states, on the normal exit as well as on
the state in which an exception escapes. -/
theorem C3_index_invariant (α : Type) (n : Nat) :
    (∀ s : VariantState α n, s.WF →
      (-1 ≤ s.index ∧ s.index < (n : Int)) ∧
      (s.valueless_by_exception = true ↔ s.index = -1)) ∧
    (∀ (i : Nat) (v : α), i < n → (mkVariant (α := α) n i v).WF) ∧
    (∀ (that : VariantState α n) (ctorOf : α → Except Unit α)
       (s : VariantState α n), that.WF →
      smf_construct that ctorOf = .ok s → s.WF) ∧
    (∀ s : VariantState α n, s.WF → s.clear.WF) ∧
    (∀ (s : VariantState α n) (i : Nat) (ctor : Except Unit α),
      s.WF → i < n → ExceptWF (s.emplace_ i ctor)) ∧
    (∀ (self that : VariantState α n) (assignOf : α → α → Except α α)
       (moveOf : α → Except Unit α), self.WF → that.WF →
      ExceptWF (moveAssign self that assignOf moveOf)) ∧
    (∀ (self that : VariantState α n) (assignOf : α → α → Except α α)
       (copyOf moveOf : α → Except Unit α), self.WF → that.WF →
      ExceptWF (copyAssign self that assignOf copyOf moveOf)) ∧
    (∀ (self : VariantState α n) (j : Nat) (assignOf : α → Except α α)
       (ctor : Except Unit α), self.WF → j < n →
      ExceptWF (convertAssign self j assignOf ctor)) ∧
    (∀ (self that : VariantState α n)
       (swapOf : Nat → α → α → Except (α × α) (α × α))
       (moveOf : α → Except Unit α), self.WF → that.WF →
      ExceptWF2 (swap_impl self that swapOf moveOf)) := by
  refine ⟨?_, ?_, ?_, ?_, ?_, ?_, ?_, ?_, ?_⟩
  · intro s hw
    refine ⟨⟨hw.1, hw.2.1⟩, ?_⟩
    have h1 := hw.1
    simp [VariantState.valueless_by_exception]
    omega
  · intro i v h
    exact wf_mk i v h
  · intro that ctorOf s hw h
    exact wf_smf_construct that ctorOf hw s h
  · intro s _
    exact wf_clear s
  · intro s i ctor _ hi
    exact wf_emplace s i ctor hi
  · intro self that assignOf moveOf hs ht
    exact wf_moveAssign self that hs ht assignOf moveOf
  · intro self that assignOf copyOf moveOf hs ht
    exact wf_copyAssign self that hs ht assignOf copyOf moveOf
  · intro self j assignOf ctor hs hj
    exact wf_convertAssign self j hj hs assignOf ctor
  · intro self that swapOf moveOf hs ht
    exact wf_swap_impl self that hs ht swapOf moveOf

theorem C3_witness :
    ({ index := -1, storage := none } : VariantState Nat 2).WF ∧
    ((-1 ≤ ({ index := -1, storage := none } : VariantState Nat 2).index ∧
      ({ index := -1, storage := none } : VariantState Nat 2).index < (2 : Int)) ∧
    (({ index := -1, storage := none } :
        VariantState Nat 2).valueless_by_exception = true ↔
      ({ index := -1, storage := none } : VariantState Nat 2).index = -1)) :=
  ⟨by decide,
    (C3_index_invariant Nat 2).1 { index := -1, storage := none } (by decide)⟩

/-- C6: the relational operators order a valueless operand below every
non-valueless one; two valueless operands compare equal (and neither is
less than the other); when neither operand is valueless the comparison is
decided by `index()` first, and an index tie is broken by the live
alternative's own comparison. -/
theorem C6_relops (eqOf ltOf : Nat → α → α → Bool) (x y : VariantState α n)
    (hx : x.WF) (hy : y.WF) :
    (x.valueless_by_exception = true → y.valueless_by_exception = false →
      variantLt ltOf x y = true ∧ variantLt ltOf y x = false ∧
      variantEq eqOf x y = false) ∧
    (x.valueless_by_exception = true → y.valueless_by_exception = true →
      variantEq eqOf x y = true ∧ variantLt ltOf x y = false) ∧
    (x.valueless_by_exception = false → y.valueless_by_exception = false →
      x.index ≠ y.index →
      variantEq eqOf x y = false ∧
      variantLt ltOf x y = decide (x.index < y.index)) ∧
    (∀ a b, x.valueless_by_exception = false → y.valueless_by_exception = false →
      x.index = y.index → x.storage = some a → y.storage = some b →
      variantEq eqOf x y = eqOf x.index.toNat a b ∧
      variantLt ltOf x y = ltOf x.index.toNat a b) := by
  refine ⟨?_, ?_, ?_, ?_⟩
  · intro hxv hyv
    have hx1 : x.index = -1 := by
      have h1 := hx.1
      simp [VariantState.valueless_by_exception] at hxv
      omega
    have hy0 : 0 ≤ y.index := by
      simp [VariantState.valueless_by_exception] at hyv
      omega
    have hne : x.index ≠ y.index := by omega
    refine ⟨?_, ?_, ?_⟩
    · simp [variantLt, hxv, hyv]
    · simp [variantLt, hxv]
    · simp [variantEq, hne]
  · intro hxv hyv
    have hx1 : x.index = -1 := by
      have h1 := hx.1
      simp [VariantState.valueless_by_exception] at hxv
      omega
    have hy1 : y.index = -1 := by
      have h1 := hy.1
      simp [VariantState.valueless_by_exception] at hyv
      omega
    refine ⟨?_, ?_⟩
    · simp [variantEq, hx1, hy1, hxv]
    · simp [variantLt, hyv]
  · intro hxv hyv hne
    refine ⟨?_, ?_⟩
    · simp [variantEq, hne]
    · by_cases hlt : x.index < y.index
      · simp [variantLt, hyv, hlt]
      · have hgt : y.index < x.index := by omega
        simp [variantLt, hxv, hyv, hlt, hgt]
  · intro a b hxv hyv heq ha hb
    refine ⟨?_, ?_⟩
    · simp [variantEq, heq, hxv, ha, hb]
    · have hnlt : ¬x.index < y.index := by omega
      have hnlt2 : ¬y.index < x.index := by omega
      simp [variantLt, hxv, hyv, heq, ha, hb, hnlt, hnlt2]

theorem C6_witness :
    (({ index := -1, storage := none } : VariantState Nat 2).WF ∧
      ({ index := 0, storage := some 3 } : VariantState Nat 2).WF) ∧
    (variantLt (fun _ a b => decide (a < b))
        ({ index := -1, storage := none } : VariantState Nat 2)
        { index := 0, storage := some 3 } = true ∧
    variantLt (fun _ a b => decide (a < b))
        ({ index := 0, storage := some 3 } : VariantState Nat 2)
        { index := -1, storage := none } = false ∧
    variantEq (fun _ a b => a == b)
        ({ index := -1, storage := none } : VariantState Nat 2)
        { index := 0, storage := some 3 } = false) :=
  ⟨⟨by decide, by decide⟩,
    (C6_relops (fun _ a b => a == b) (fun _ a b => decide (a < b))
      { index := -1, storage := none } { index := 0, storage := some 3 }
      (by decide) (by decide)).1 (by decide) (by decide)⟩

end RangeV3
